import Mathlib

/-!
Shallow embedding of the ATHLOUN Inner Circle verification backend
(src/server.js; the file holds two near-identical variants of the same
Express handlers, differing only in the wired email provider and in the
body produced by the verify-form catch block).

Modelling conventions:
* Dates and timestamps are Nat milliseconds since the epoch.
* Nullable Mongo fields are Option values.
* The two Mongo collections are lists of records; findOne is List.find?
  and a mongoose save of a document is an upsert by the unique key
  work_email (saveMember below).
* Randomness (crypto.randomBytes) is passed in as an explicit argument:
  the 32-byte verification token as an opaque String, the 3 random bytes
  of the discount-code suffix as a triple of Fin 256.
* The outbound gateways (nodemailer/sendgrid, Shopify REST) are passed in
  as explicit outcome values; a thrown axios/send error corresponds to an
  Except.error and lands in the catch block of the handler.
-/

namespace Athloun

/-- Verification status enum of the member schema
(verification_status, enum of pending and verified). -/
inductive VerificationStatus
  | pending
  | verified
deriving DecidableEq

/-- The companycodes collection schema (companySchema in src/server.js). -/
structure CompanyCode where
  company_code : String
  company_name : String
  allowed_domain : String
  active : Bool
  created_at : Nat
  expires_at : Option Nat
  max_activations : Option Nat
  current_activations : Nat
deriving DecidableEq

/-- The members collection schema (memberSchema in src/server.js). -/
structure Member where
  work_email : String
  company_code : String
  company_name : String
  shopify_customer_id : Option String
  discount_code : Option String
  verification_token : Option String
  token_expires_at : Option Nat
  verified_at : Option Nat
  first_name : Option String
  last_name : Option String
  verification_status : VerificationStatus
  created_at : Nat
  first_purchase_at : Option Nat
  total_orders : Nat
  total_spent : Nat
deriving DecidableEq

/-- The persistent state: the two Mongo collections. -/
structure DB where
  companies : List CompanyCode
  members : List Member
deriving DecidableEq

/-- JS String.prototype.split with a single-character separator,
on the character list. The result is never empty. -/
def splitChar (sep : Char) : List Char → List (List Char)
  | [] => [[]]
  | c :: rest =>
    let r := splitChar sep rest
    if c = sep then [] :: r
    else
      match r with
      | [] => [[c]]
      | h :: t => (c :: h) :: t

/-- JS s.split(sep) for a one-character separator. -/
def jsSplit (s : String) (sep : Char) : List String :=
  (splitChar sep s.data).map String.mk

/-- JS work_email.split(atSign)[1]: the substring between the first and the
second at sign, or undefined (none) when the email has no at sign. -/
def emailDomain (s : String) : Option String :=
  (jsSplit s '@').get? 1

/-- JS email.split(atSign)[0]: the local part of the address. -/
def localPart (s : String) : String :=
  (jsSplit s '@').headD ""

/-- JS String.prototype.toUpperCase, faithful on ASCII data. -/
def jsToUpper (s : String) : String :=
  String.mk (s.data.map Char.toUpper)

/-- JS first_part.charAt(0).toUpperCase() + first_part.slice(1):
capitalizes the first character, leaves the rest unchanged. -/
def jsCapitalize (s : String) : String :=
  match s.data with
  | [] => ""
  | c :: cs => String.mk (Char.toUpper c :: cs)

/-- Lower-case hexadecimal digit, as produced by Buffer.toString with the
hex encoding in Node. -/
def hexCharL (n : Nat) : Char :=
  if n < 10 then Char.ofNat (48 + n) else Char.ofNat (87 + n)

/-- crypto.randomBytes(3).toString(hex).toUpperCase(): the six-character
upper-case hexadecimal rendering of the three random bytes. -/
def randomCodeOf (b : Fin 256 × Fin 256 × Fin 256) : String :=
  jsToUpper (String.mk [hexCharL (b.1.val / 16), hexCharL (b.1.val % 16),
    hexCharL (b.2.1.val / 16), hexCharL (b.2.1.val % 16),
    hexCharL (b.2.2.val / 16), hexCharL (b.2.2.val % 16)])

/-- The discount code built by the verify-email handler:
INNERCIRCLE-NAME-RANDOM where NAME is the upper-cased capitalized local
part of the email and RANDOM the hex suffix of the three random bytes. -/
def discountCodeOf (email : String) (b : Fin 256 × Fin 256 × Fin 256) : String :=
  "INNERCIRCLE-" ++ jsToUpper (jsCapitalize (localPart email)) ++ "-" ++ randomCodeOf b

/-- CompanyCode.findOne with filter company_code and active true. -/
def findCompany (db : DB) (company_code : String) : Option CompanyCode :=
  db.companies.find? (fun c => c.company_code == company_code && c.active)

/-- Member.findOne with filter work_email and verification_status verified. -/
def findVerifiedMember (db : DB) (work_email : String) : Option Member :=
  db.members.find? (fun m =>
    m.work_email == work_email && decide (m.verification_status = .verified))

/-- The expiry check of the verify-form handler:
company.expires_at is truthy and the current date is strictly past it. -/
def expiredB (c : CompanyCode) (now : Nat) : Bool :=
  match c.expires_at with
  | some t => decide (t < now)
  | none => false

/-- The activation-cap check of the verify-form handler:
company.max_activations is truthy (a set, nonzero number) and
current_activations has reached it. JS number truthiness makes a stored
zero skip the check. -/
def capReachedB (c : CompanyCode) : Bool :=
  match c.max_activations with
  | some m => decide (m ≠ 0) && decide (m ≤ c.current_activations)
  | none => false

/-- Saving a mongoose Member document: replaces the documents holding the
same unique key work_email, or inserts the document when the key is new. -/
def saveMember (ms : List Member) (m : Member) : List Member :=
  if ms.any (fun x => x.work_email == m.work_email) then
    ms.map (fun x => if x.work_email == m.work_email then m else x)
  else ms ++ [m]

/-- Outcome of the verify-form handler, before the HTTP catch layer:
a 400 with a specific error body, a 500 caused by the awaited
transporter.sendMail / sgMail.send throwing after the member was saved,
or the 200 success body. -/
inductive FormResult
  | badRequest (error : String)
  | emailDeliveryFailed
  | ok (message : String)
deriving DecidableEq

/-- The create-or-update member record step of the verify-form handler:
a fresh pending member when the work email is unknown, otherwise the
found document with the token, expiry and status fields overwritten
(all other fields, the company linkage included, are left untouched). -/
def upsertMember (db : DB) (now : Nat) (company_code work_email token : String)
    (company : CompanyCode) : Member :=
  match db.members.find? (fun m => m.work_email == work_email) with
  | none =>
    { work_email := work_email
      company_code := company_code
      company_name := company.company_name
      shopify_customer_id := none
      discount_code := none
      verification_token := some token
      token_expires_at := some (now + 24 * 60 * 60 * 1000)
      verified_at := none
      first_name := none
      last_name := none
      verification_status := .pending
      created_at := now
      first_purchase_at := none
      total_orders := 0
      total_spent := 0 : Member }
  | some m =>
    { m with verification_token := some token
             token_expires_at := some (now + 24 * 60 * 60 * 1000)
             verification_status := .pending }

/-- The POST /api/verify-form handler (identical logic in both source
variants): the six-step validation chain, the token upsert, and the
verification email send. The fresh 64-hex-character token is an argument,
as is the send outcome of the email gateway. -/
def submitCore (db : DB) (now : Nat) (company_code work_email : String)
    (token : String) (emailOk : Bool) : FormResult × DB :=
  if company_code = "" ∨ work_email = "" then
    (.badRequest "All fields required", db)
  else
    match findCompany db company_code with
    | none =>
      (.badRequest "Invalid code. Please check your Inner Circle card and try again.", db)
    | some company =>
      if expiredB company now then
        (.badRequest "This Insider program is no longer active. Contact support for assistance.", db)
      else if capReachedB company then
        (.badRequest "This company code has reached its activation limit.", db)
      else if emailDomain work_email ≠ some company.allowed_domain then
        (.badRequest ("This email domain is not eligible. Use your @" ++
          company.allowed_domain ++ " work email."), db)
      else
        match findVerifiedMember db work_email with
        | some _ =>
          (.badRequest "This email is already registered. Log in to your account to access your discount.", db)
        | none =>
          let member := upsertMember db now company_code work_email token company
          let db2 := { db with members := saveMember db.members member }
          if emailOk then
            (.ok ("Check your email! We sent a verification link to " ++ work_email ++ "."), db2)
          else
            (.emailDeliveryFailed, db2)

/-- The filter of the Member.findOne lookup in the verify-email handler:
matching work_email, matching verification_token, token_expires_at
strictly in the future, verification_status pending. -/
def verifyPred (now : Nat) (token email : String) (m : Member) : Bool :=
  m.work_email == email && m.verification_token == some token &&
    (match m.token_expires_at with
     | some t => decide (now < t)
     | none => false) &&
    decide (m.verification_status = .pending)

/-- Outcomes of the Shopify REST calls made by the verify-email handler.
The customer search is wrapped in a catch that turns a failure into an
empty result list, so only its resulting list is modelled. -/
structure ShopifyGateway where
  search_customers : List String
  create_customer : Except String String
  create_price_rule : Except String Nat
  attach_code : Except String Unit

/-- The find-or-create customer step: the first search hit, otherwise the
outcome of the customer-creation POST. -/
def customerOf (gw : ShopifyGateway) : Except String String :=
  match gw.search_customers with
  | id :: _ => .ok id
  | [] => gw.create_customer

/-- Outcome of the verify-email handler, before the HTTP catch layer. -/
inductive VerifyResult
  | linkInvalid
  | provisioningFailed (err : String)
  | confirmEmailFailed
  | ok (message : String) (discount_code : String) (first_name : String)
deriving DecidableEq

/-- CompanyCode.updateOne with the inc operator on current_activations:
increments the first document matching the company code. -/
def incActivations : List CompanyCode → String → List CompanyCode
  | [], _ => []
  | c :: rest, code =>
    if c.company_code = code then
      { c with current_activations := c.current_activations + 1 } :: rest
    else c :: incActivations rest code

/-- The member update performed on Shopify success by the verify-email
handler: store the customer id and the discount code, flip the status to
verified, stamp verified_at, clear the token and its expiry. -/
def verifiedUpdate (member : Member) (now : Nat)
    (shopify_customer_id discount_code : String) : Member :=
  { member with
      shopify_customer_id := some shopify_customer_id
      discount_code := some discount_code
      verification_status := .verified
      verified_at := some now
      verification_token := none
      token_expires_at := none }

/-- The GET /api/verify-email handler (identical logic in both source
variants): token lookup, discount-code generation from three random
bytes, Shopify provisioning, member transition to verified, activation
increment, confirmation email. -/
def verifyCore (db : DB) (now : Nat) (token email : String)
    (b : Fin 256 × Fin 256 × Fin 256) (gw : ShopifyGateway)
    (confirmEmailOk : Bool) : VerifyResult × DB :=
  match db.members.find? (verifyPred now token email) with
  | none => (.linkInvalid, db)
  | some member =>
    let first_name := jsCapitalize (localPart email)
    let discount_code := discountCodeOf email b
    match customerOf gw with
    | .error e => (.provisioningFailed e, db)
    | .ok shopify_customer_id =>
      match gw.create_price_rule with
      | .error e => (.provisioningFailed e, db)
      | .ok _price_rule_id =>
        match gw.attach_code with
        | .error e => (.provisioningFailed e, db)
        | .ok _ =>
          let member2 := verifiedUpdate member now shopify_customer_id discount_code
          let db2 :=
            { db with
                members := saveMember db.members member2
                companies := incActivations db.companies member.company_code }
          if confirmEmailOk then
            (.ok "Email verified! Your discount code has been generated."
              discount_code first_name, db2)
          else
            (.confirmEmailFailed, db2)

/-- JS falsy-to-null coercion applied to the optional numeric admin
inputs: max_activations or-null stores null for a missing or zero value,
and the conditional on expires_at behaves the same way on a number. -/
def orNullNat : Option Nat → Option Nat
  | none => none
  | some 0 => none
  | some k => some k

/-- Outcome of the admin company-code creation handler. -/
inductive AdminResult
  | unauthorized
  | ok (message : String)
deriving DecidableEq

/-- The POST /api/admin/company-codes handler: shared-secret header gate,
falsy coercion of the optional fields, insertion of the new company with
schema defaults (active true, current_activations zero). -/
def adminCreate (db : DB) (now : Nat) (x_admin_key admin_key : String)
    (company_code company_name allowed_domain : String)
    (expires_at max_activations : Option Nat) : AdminResult × DB :=
  if x_admin_key ≠ admin_key then (.unauthorized, db)
  else
    let new_company : CompanyCode :=
      { company_code := company_code
        company_name := company_name
        allowed_domain := allowed_domain
        active := true
        created_at := now
        expires_at := orNullNat expires_at
        max_activations := orNullNat max_activations
        current_activations := 0 }
    (.ok ("Company code " ++ company_code ++ " created successfully"),
      { db with companies := db.companies ++ [new_company] })

/-- The catch block of the verify-form handler in the first source
variant: status 500 with body error.message or the generic fallback when
the message is falsy (empty). -/
def formCatch_v1 (errMessage : String) : Nat × String :=
  (500, if errMessage = "" then "An error occurred. Please try again." else errMessage)

/-- The catch block of the verify-form handler in the second source
variant: status 500 with a fixed generic body. -/
def formCatch_v2 (_errMessage : String) : Nat × String :=
  (500, "An error occurred. Please try again.")

/-- The catch block of the verify-email handler (both variants):
status 500 with a fixed generic body. -/
def verifyCatch (_errMessage : String) : Nat × String :=
  (500, "An error occurred during verification.")

/-- The catch block of the admin company-code creation handler
(both variants): status 500 with a fixed generic body. -/
def adminCreateCatch (_errMessage : String) : Nat × String :=
  (500, "Error creating company code")

/-- The catch block of the admin stats handler (both variants):
status 500 with a fixed generic body. -/
def adminStatsCatch (_errMessage : String) : Nat × String :=
  (500, "Error fetching stats")

/-- One request against the backend, with all external nondeterminism
(current time, fresh randomness, gateway outcomes) made explicit. -/
inductive Op
  | submit (now : Nat) (company_code work_email token : String) (emailOk : Bool)
  | verify (now : Nat) (token email : String) (b : Fin 256 × Fin 256 × Fin 256)
      (gw : ShopifyGateway) (confirmEmailOk : Bool)
  | admin (now : Nat) (x_admin_key admin_key : String)
      (company_code company_name allowed_domain : String)
      (expires_at max_activations : Option Nat)

/-- State transition of one request. -/
def step (db : DB) : Op → DB
  | .submit now cc we tok eok => (submitCore db now cc we tok eok).2
  | .verify now tok em b gw ce => (verifyCore db now tok em b gw ce).2
  | .admin now hdr key cc cn dom e mx => (adminCreate db now hdr key cc cn dom e mx).2

/-- Sequential execution of a list of requests. -/
def run (db : DB) : List Op → DB
  | [] => db
  | op :: rest => run (step db op) rest

/-- Whether a verify-email outcome provisioned and stored a discount code
(the success body, or the send failure of the confirmation email, which
happens after the member was saved). -/
def issuedResult : VerifyResult → Bool
  | .ok _ _ _ => true
  | .confirmEmailFailed => true
  | _ => false

/-- Whether executing the request in the given state issues a discount
code for the given work email. -/
def issues (db : DB) (op : Op) (e : String) : Bool :=
  match op with
  | .verify now token email b gw ce =>
    email == e && issuedResult (verifyCore db now token email b gw ce).1
  | _ => false

/-- Number of discount codes issued for the given work email along a
sequential execution. -/
def countIssues (db : DB) (ops : List Op) (e : String) : Nat :=
  match ops with
  | [] => 0
  | op :: rest =>
    (if issues db op e then 1 else 0) + countIssues (step db op) rest e

/-- Invariant used for the single-issuance argument: the work email has at
least one member record and every member record bearing it is verified. -/
def allVerified (db : DB) (e : String) : Prop :=
  (∃ x ∈ db.members, x.work_email = e) ∧
  ∀ x ∈ db.members, x.work_email = e → x.verification_status = .verified

/-- The activation-cap invariant of the spec: every company with a set
max_activations has current_activations at or below it. -/
def capInvariantB (db : DB) : Bool :=
  db.companies.all (fun c =>
    match c.max_activations with
    | some m => decide (c.current_activations ≤ m)
    | none => true)

/-- A generator of the random discount suffix carries k bytes of entropy
when some injection of two-to-the-eight-k many distinct random draws
yields pairwise distinct suffixes. -/
def carriesEntropyBytes (g : Fin 256 × Fin 256 × Fin 256 → String) (k : Nat) : Prop :=
  ∃ f : Fin (2 ^ (8 * k)) → Fin 256 × Fin 256 × Fin 256,
    Function.Injective (fun i => g (f i))

/-- Whether a request is one of the two core operations (form submission
or email verification), as opposed to an admin request. -/
def coreOp : Op → Bool
  | .submit _ _ _ _ _ => true
  | .verify _ _ _ _ _ _ => true
  | .admin _ _ _ _ _ _ _ _ => false

/-- Full success of the Shopify provisioning sequence: the find-or-create
customer step yields an id, the price-rule creation yields a rule id, and
the discount-code attachment succeeds. -/
def GwOk (gw : ShopifyGateway) : Prop :=
  (∃ cust, customerOf gw = .ok cust) ∧ (∃ rid, gw.create_price_rule = .ok rid)
    ∧ gw.attach_code = .ok ()

/-- Initial state of the C1 scenario: one active company, cap one,
counter zero, no members. -/
def dbC1 : DB := DB.mk [⟨"ACME1", "Acme", "acme.com", true, 0, none, some 1, 0⟩] []

/-- The C1 scenario: two submissions, then the two matching
verifications, strictly one after the other. -/
def opsC1 : List Op :=
  [.submit 0 "ACME1" "jane@acme.com" "tokJ" true,
   .submit 0 "ACME1" "bob@acme.com" "tokB" true,
   .verify 1 "tokJ" "jane@acme.com" (0, 0, 0)
     ⟨["cust1"], Except.ok "cust1", Except.ok 1, Except.ok ()⟩ true,
   .verify 1 "tokB" "bob@acme.com" (0, 0, 0)
     ⟨["cust1"], Except.ok "cust1", Except.ok 1, Except.ok ()⟩ true]

/-- Initial state of the C2 scenario: a second company ACME2 for the same
email domain, and an existing pending member previously linked to ACME1. -/
def dbC2 : DB :=
  DB.mk [⟨"ACME2", "Acme Two", "acme.com", true, 0, none, none, 0⟩]
    [⟨"jane@acme.com", "ACME1", "Acme One", none, none, none, none, none, none,
      none, .pending, 0, none, 0, 0⟩]

/-- The existing member of the C2 scenario. -/
def mC2 : Member :=
  ⟨"jane@acme.com", "ACME1", "Acme One", none, none, none, none, none, none,
    none, .pending, 0, none, 0, 0⟩

/-! Helper lemmas about the upsert saveMember and the findOne lookups. -/

lemma mem_of_mem_saveMember {ms : List Member} {m y : Member}
    (h : y ∈ saveMember ms m) : y ∈ ms ∨ y = m := by
  unfold saveMember at h
  split at h
  · rcases List.mem_map.mp h with ⟨x, hx, hfx⟩
    by_cases hxe : (x.work_email == m.work_email) = true
    · right; rw [if_pos hxe] at hfx; exact hfx.symm
    · left; rw [if_neg hxe] at hfx; exact hfx ▸ hx
  · rcases List.mem_append.mp h with h1 | h1
    · exact Or.inl h1
    · exact Or.inr (List.mem_singleton.mp h1)

lemma self_mem_saveMember (ms : List Member) (m : Member) :
    m ∈ saveMember ms m := by
  unfold saveMember
  split
  · rename_i hany
    rcases List.any_eq_true.mp hany with ⟨x, hx, hxe⟩
    exact List.mem_map.mpr ⟨x, hx, if_pos hxe⟩
  · exact List.mem_append.mpr (Or.inr (List.mem_singleton.mpr rfl))

lemma saveMember_eq_of_email {ms : List Member} {m y : Member}
    (h : y ∈ saveMember ms m) (he : y.work_email = m.work_email) : y = m := by
  unfold saveMember at h
  split at h
  · rcases List.mem_map.mp h with ⟨x, hx, hfx⟩
    by_cases hxe : (x.work_email == m.work_email) = true
    · rw [if_pos hxe] at hfx; exact hfx.symm
    · rw [if_neg hxe] at hfx
      exact absurd (beq_iff_eq.mpr (hfx ▸ he)) hxe
  · rename_i hany
    rcases List.mem_append.mp h with h1 | h1
    · have hcontra : (ms.any fun x => x.work_email == m.work_email) = true :=
        List.any_eq_true.mpr ⟨y, h1, beq_iff_eq.mpr he⟩
      exact absurd hcontra hany
    · exact List.mem_singleton.mp h1

lemma mem_saveMember_of_ne {ms : List Member} {m x : Member}
    (h : x ∈ ms) (hne : x.work_email ≠ m.work_email) : x ∈ saveMember ms m := by
  unfold saveMember
  split
  · exact List.mem_map.mpr ⟨x, h, if_neg (by simpa using hne)⟩
  · exact List.mem_append.mpr (Or.inl h)

lemma find?_map_update (m : Member) (p : Member → Bool) (hp : p m = true)
    (hnp : ∀ x, x.work_email ≠ m.work_email → p x = false) :
    ∀ ms : List Member, (∃ x ∈ ms, (x.work_email == m.work_email) = true) →
      (ms.map (fun x => if x.work_email == m.work_email then m else x)).find? p
        = some m := by
  intro ms
  induction ms with
  | nil => rintro ⟨x, hx, _⟩; cases hx
  | cons a t ih =>
    rintro ⟨x, hx, hxe⟩
    by_cases ha : (a.work_email == m.work_email) = true
    · simp [List.find?, ha, hp]
    · have hane : a.work_email ≠ m.work_email := by simpa using ha
      have hpa : p a = false := hnp a hane
      have hxt : x ∈ t := by
        rcases List.mem_cons.mp hx with rfl | h
        · exact absurd hxe ha
        · exact h
      simpa [List.find?, ha, hpa] using ih ⟨x, hxt, hxe⟩

lemma find?_append_singleton (m : Member) (p : Member → Bool) (hp : p m = true) :
    ∀ ms : List Member, (∀ x ∈ ms, p x = false) →
      (ms ++ [m]).find? p = some m := by
  intro ms
  induction ms with
  | nil => intro _; simp [List.find?, hp]
  | cons a t ih =>
    intro hall
    have hpa : p a = false := hall a (List.mem_cons_self a t)
    simpa [List.find?, hpa] using ih (fun x hx => hall x (List.mem_cons_of_mem a hx))

lemma find?_saveMember (ms : List Member) (m : Member) (p : Member → Bool)
    (hp : p m = true) (hnp : ∀ x, x.work_email ≠ m.work_email → p x = false) :
    (saveMember ms m).find? p = some m := by
  unfold saveMember
  split
  · rename_i hany
    exact find?_map_update m p hp hnp ms (List.any_eq_true.mp hany)
  · rename_i hany
    refine find?_append_singleton m p hp ms (fun x hx => ?_)
    refine hnp x (fun he => hany ?_)
    exact List.any_eq_true.mpr ⟨x, hx, beq_iff_eq.mpr he⟩

/-! Shape lemmas about the handler branches. -/

lemma upsertMember_email (db : DB) (now : Nat) (cc we tok : String)
    (company : CompanyCode) :
    (upsertMember db now cc we tok company).work_email = we := by
  unfold upsertMember
  cases hf : db.members.find? (fun m => m.work_email == we) with
  | none => rfl
  | some m => simpa using List.find?_some hf

lemma upsertMember_fields (db : DB) (now : Nat) (cc we tok : String)
    (company : CompanyCode) :
    (upsertMember db now cc we tok company).verification_token = some tok ∧
    (upsertMember db now cc we tok company).token_expires_at
      = some (now + 24 * 60 * 60 * 1000) ∧
    (upsertMember db now cc we tok company).verification_status = .pending := by
  unfold upsertMember
  cases db.members.find? (fun m => m.work_email == we) <;> exact ⟨rfl, rfl, rfl⟩

lemma submitCore_persist (db : DB) (now : Nat) (cc we tok : String) (eok : Bool)
    (h : ∀ e, (submitCore db now cc we tok eok).1 ≠ FormResult.badRequest e) :
    ∃ company, findCompany db cc = some company ∧
      (submitCore db now cc we tok eok).2 =
        { db with members :=
            saveMember db.members (upsertMember db now cc we tok company) } := by
  by_cases h1 : cc = "" ∨ we = ""
  · exact absurd (by simp [submitCore, h1]) (h "All fields required")
  cases hfc : findCompany db cc with
  | none =>
    exact absurd (by simp [submitCore, h1, hfc])
      (h "Invalid code. Please check your Inner Circle card and try again.")
  | some company =>
    by_cases h3 : expiredB company now = true
    · exact absurd (by simp [submitCore, h1, hfc, h3])
        (h "This Insider program is no longer active. Contact support for assistance.")
    by_cases h4 : capReachedB company = true
    · exact absurd (by simp [submitCore, h1, hfc, h3, h4])
        (h "This company code has reached its activation limit.")
    by_cases h5 : emailDomain we ≠ some company.allowed_domain
    · exact absurd (by simp [submitCore, h1, hfc, h3, h4, h5])
        (h ("This email domain is not eligible. Use your @" ++
          company.allowed_domain ++ " work email."))
    cases hfv : findVerifiedMember db we with
    | some m =>
      exact absurd (by simp [submitCore, h1, hfc, h3, h4, h5, hfv])
        (h "This email is already registered. Log in to your account to access your discount.")
    | none =>
      refine ⟨company, rfl, ?_⟩
      cases eok <;> simp [submitCore, h1, hfc, h3, h4, h5, hfv]

lemma submitCore_badRequest_db (db : DB) (now : Nat) (cc we tok : String)
    (eok : Bool) (e : String)
    (h : (submitCore db now cc we tok eok).1 = .badRequest e) :
    (submitCore db now cc we tok eok).2 = db := by
  by_cases h1 : cc = "" ∨ we = ""
  · simp [submitCore, h1]
  cases hfc : findCompany db cc with
  | none => simp [submitCore, h1, hfc]
  | some company =>
    by_cases h3 : expiredB company now = true
    · simp [submitCore, h1, hfc, h3]
    by_cases h4 : capReachedB company = true
    · simp [submitCore, h1, hfc, h3, h4]
    by_cases h5 : emailDomain we ≠ some company.allowed_domain
    · simp [submitCore, h1, hfc, h3, h4, h5]
    cases hfv : findVerifiedMember db we with
    | some m => simp [submitCore, h1, hfc, h3, h4, h5, hfv]
    | none =>
      exfalso
      cases eok <;> simp [submitCore, h1, hfc, h3, h4, h5, hfv] at h

lemma verifyPred_spec {now : Nat} {token email : String} {m : Member}
    (h : verifyPred now token email m = true) :
    m.work_email = email ∧ m.verification_token = some token ∧
    (∃ t, m.token_expires_at = some t ∧ now < t) ∧
    m.verification_status = .pending := by
  unfold verifyPred at h
  cases hte : m.token_expires_at with
  | none => rw [hte] at h; simp at h
  | some t =>
    rw [hte] at h
    simp only [Bool.and_eq_true, beq_iff_eq, decide_eq_true_eq] at h
    exact ⟨h.1.1.1, h.1.1.2, ⟨t, rfl, h.1.2⟩, h.2⟩

lemma verifyCore_not_issued_db (db : DB) (now : Nat) (token email : String)
    (b : Fin 256 × Fin 256 × Fin 256) (gw : ShopifyGateway) (ce : Bool)
    (h : issuedResult (verifyCore db now token email b gw ce).1 = false) :
    (verifyCore db now token email b gw ce).2 = db := by
  cases hf : db.members.find? (verifyPred now token email) with
  | none => simp [verifyCore, hf]
  | some member =>
    cases hc : customerOf gw with
    | error e => simp [verifyCore, hf, hc]
    | ok cust =>
      cases hp : gw.create_price_rule with
      | error e => simp [verifyCore, hf, hc, hp]
      | ok rid =>
        cases ha : gw.attach_code with
        | error e => simp [verifyCore, hf, hc, hp, ha]
        | ok u =>
          exfalso
          cases ce <;> simp [verifyCore, issuedResult, hf, hc, hp, ha] at h

lemma verifyCore_issued_shape (db : DB) (now : Nat) (token email : String)
    (b : Fin 256 × Fin 256 × Fin 256) (gw : ShopifyGateway) (ce : Bool)
    (h : issuedResult (verifyCore db now token email b gw ce).1 = true) :
    ∃ member cust, db.members.find? (verifyPred now token email) = some member ∧
      customerOf gw = .ok cust ∧
      (verifyCore db now token email b gw ce).2 =
        { db with
            members := saveMember db.members
              (verifiedUpdate member now cust (discountCodeOf email b))
            companies := incActivations db.companies member.company_code } := by
  cases hf : db.members.find? (verifyPred now token email) with
  | none => exfalso; simp [verifyCore, issuedResult, hf] at h
  | some member =>
    cases hc : customerOf gw with
    | error e => exfalso; simp [verifyCore, issuedResult, hf, hc] at h
    | ok cust =>
      cases hp : gw.create_price_rule with
      | error e => exfalso; simp [verifyCore, issuedResult, hf, hc, hp] at h
      | ok rid =>
        cases ha : gw.attach_code with
        | error e => exfalso; simp [verifyCore, issuedResult, hf, hc, hp, ha] at h
        | ok u =>
          refine ⟨member, cust, rfl, rfl, ?_⟩
          cases ce <;> simp [verifyCore, hf, hc, hp, ha]

lemma find?_of_unique (l : List Member) (m : Member) (p : Member → Bool)
    (hmem : m ∈ l) (hall : ∀ x ∈ l, x.work_email = m.work_email → x = m)
    (hp : p m = true) (hnp : ∀ x, x.work_email ≠ m.work_email → p x = false) :
    l.find? p = some m := by
  induction l with
  | nil => cases hmem
  | cons a t ih =>
    by_cases hae : a.work_email = m.work_email
    · have ham : a = m := hall a (List.mem_cons_self a t) hae
      rw [ham]
      simp [List.find?, hp]
    · have hpa : p a = false := hnp a hae
      have hmt : m ∈ t := by
        rcases List.mem_cons.mp hmem with rfl | h
        · exact absurd rfl hae
        · exact h
      simp only [List.find?, hpa]
      exact ih hmt (fun x hx he => hall x (List.mem_cons_of_mem a hx) he)

lemma submit_persist_find (db : DB) (now : Nat) (cc we tok : String) (eok : Bool)
    (hne : ∀ e, (submitCore db now cc we tok eok).1 ≠ FormResult.badRequest e) :
    ∃ m2, (submitCore db now cc we tok eok).2.members.find?
        (fun x => x.work_email == we) = some m2
      ∧ m2.work_email = we
      ∧ m2.verification_token = some tok
      ∧ m2.token_expires_at = some (now + 24 * 60 * 60 * 1000)
      ∧ m2.verification_status = .pending
      ∧ (∀ x ∈ (submitCore db now cc we tok eok).2.members,
          x.work_email = we → x = m2)
      ∧ m2 ∈ (submitCore db now cc we tok eok).2.members := by
  obtain ⟨company, hfc, h2⟩ := submitCore_persist db now cc we tok eok hne
  obtain ⟨htok, hexp, hst⟩ := upsertMember_fields db now cc we tok company
  have hemail := upsertMember_email db now cc we tok company
  refine ⟨upsertMember db now cc we tok company, ?_, hemail, htok, hexp, hst, ?_, ?_⟩
  · rw [h2]
    show (saveMember db.members (upsertMember db now cc we tok company)).find? _ = _
    refine find?_saveMember _ _ _ ?_ ?_
    · simpa using hemail
    · intro x hx
      have : x.work_email ≠ we := fun hxe => hx (hxe.trans hemail.symm)
      simpa using this
  · intro x hx he
    rw [h2] at hx
    exact saveMember_eq_of_email hx (he.trans hemail.symm)
  · rw [h2]
    exact self_mem_saveMember _ _

lemma verifyCore_success (db : DB) (now : Nat) (token email : String)
    (b : Fin 256 × Fin 256 × Fin 256) (gw : ShopifyGateway)
    (member : Member)
    (hf : db.members.find? (verifyPred now token email) = some member)
    (hgw : GwOk gw) :
    (verifyCore db now token email b gw true).1
      = .ok "Email verified! Your discount code has been generated."
          (discountCodeOf email b) (jsCapitalize (localPart email)) := by
  obtain ⟨⟨cust, hc⟩, ⟨rid, hp⟩, ha⟩ := hgw
  simp [verifyCore, hf, hc, hp, ha]

lemma submitCore_persist_no_verified (db : DB) (now : Nat) (cc we tok : String)
    (eok : Bool)
    (hne : ∀ e, (submitCore db now cc we tok eok).1 ≠ FormResult.badRequest e) :
    findVerifiedMember db we = none := by
  by_cases h1 : cc = "" ∨ we = ""
  · exact absurd (by simp [submitCore, h1]) (hne "All fields required")
  cases hfc : findCompany db cc with
  | none =>
    exact absurd (by simp [submitCore, h1, hfc])
      (hne "Invalid code. Please check your Inner Circle card and try again.")
  | some company =>
    by_cases h3 : expiredB company now = true
    · exact absurd (by simp [submitCore, h1, hfc, h3])
        (hne "This Insider program is no longer active. Contact support for assistance.")
    by_cases h4 : capReachedB company = true
    · exact absurd (by simp [submitCore, h1, hfc, h3, h4])
        (hne "This company code has reached its activation limit.")
    by_cases h5 : emailDomain we ≠ some company.allowed_domain
    · exact absurd (by simp [submitCore, h1, hfc, h3, h4, h5])
        (hne ("This email domain is not eligible. Use your @" ++
          company.allowed_domain ++ " work email."))
    cases hfv : findVerifiedMember db we with
    | some m =>
      exact absurd (by simp [submitCore, h1, hfc, h3, h4, h5, hfv])
        (hne "This email is already registered. Log in to your account to access your discount.")
    | none => rfl

lemma adminCreate_members (db : DB) (now : Nat) (hdr key cc cn dom : String)
    (e mx : Option Nat) :
    (adminCreate db now hdr key cc cn dom e mx).2.members = db.members := by
  unfold adminCreate
  split <;> rfl

lemma allVerified_not_issued (db : DB) (op : Op) (e : String)
    (h : allVerified db e) : issues db op e = false := by
  cases op with
  | submit now cc we tok eok => rfl
  | admin now hdr key cc cn dom ex mx => rfl
  | verify now token email b gw ce =>
    by_cases he : email = e
    · subst he
      have hnone : db.members.find? (verifyPred now token email) = none := by
        refine List.find?_eq_none.mpr (fun x hx hpx => ?_)
        obtain ⟨hxe, -, -, hxs⟩ := verifyPred_spec hpx
        have hv := h.2 x hx hxe
        rw [hxs] at hv
        cases hv
      simp [issues, verifyCore, hnone, issuedResult]
    · simp [issues, he]

lemma allVerified_step (db : DB) (op : Op) (e : String)
    (h : allVerified db e) : allVerified (step db op) e := by
  cases op with
  | admin now hdr key cc cn dom ex mx =>
    show allVerified (adminCreate db now hdr key cc cn dom ex mx).2 e
    unfold allVerified
    rw [adminCreate_members]
    exact h
  | submit now cc we tok eok =>
    show allVerified (submitCore db now cc we tok eok).2 e
    cases hres : (submitCore db now cc we tok eok).1 with
    | badRequest err =>
      rw [submitCore_badRequest_db db now cc we tok eok err hres]
      exact h
    | emailDeliveryFailed =>
      have hne : ∀ err, (submitCore db now cc we tok eok).1 ≠ FormResult.badRequest err := by
        intro err he
        rw [hres] at he
        cases he
      obtain ⟨company, hfc, h2⟩ := submitCore_persist db now cc we tok eok hne
      have hfv := submitCore_persist_no_verified db now cc we tok eok hne
      have hwe : we ≠ e := by
        intro hwe
        obtain ⟨x, hxmem, hxe⟩ := h.1
        have hxv := h.2 x hxmem hxe
        have : (fun m => m.work_email == we &&
            decide (m.verification_status = VerificationStatus.verified)) x = true := by
          simp [hxe, hwe, hxv]
        exact absurd (List.find?_eq_none.mp hfv x hxmem) (by simp [this])
      rw [h2]
      have hMe : (upsertMember db now cc we tok company).work_email = we :=
        upsertMember_email db now cc we tok company
      constructor
      · obtain ⟨x, hxmem, hxe⟩ := h.1
        refine ⟨x, mem_saveMember_of_ne hxmem ?_, hxe⟩
        rw [hMe, hxe]
        exact fun hcc => hwe hcc.symm
      · intro y hy hye
        rcases mem_of_mem_saveMember hy with hym | hym
        · exact h.2 y hym hye
        · rw [hym, hMe] at hye
          exact absurd hye hwe
    | ok msg =>
      have hne : ∀ err, (submitCore db now cc we tok eok).1 ≠ FormResult.badRequest err := by
        intro err he
        rw [hres] at he
        cases he
      obtain ⟨company, hfc, h2⟩ := submitCore_persist db now cc we tok eok hne
      have hfv := submitCore_persist_no_verified db now cc we tok eok hne
      have hwe : we ≠ e := by
        intro hwe
        obtain ⟨x, hxmem, hxe⟩ := h.1
        have hxv := h.2 x hxmem hxe
        have : (fun m => m.work_email == we &&
            decide (m.verification_status = VerificationStatus.verified)) x = true := by
          simp [hxe, hwe, hxv]
        exact absurd (List.find?_eq_none.mp hfv x hxmem) (by simp [this])
      rw [h2]
      have hMe : (upsertMember db now cc we tok company).work_email = we :=
        upsertMember_email db now cc we tok company
      constructor
      · obtain ⟨x, hxmem, hxe⟩ := h.1
        refine ⟨x, mem_saveMember_of_ne hxmem ?_, hxe⟩
        rw [hMe, hxe]
        exact fun hcc => hwe hcc.symm
      · intro y hy hye
        rcases mem_of_mem_saveMember hy with hym | hym
        · exact h.2 y hym hye
        · rw [hym, hMe] at hye
          exact absurd hye hwe
  | verify now token email b gw ce =>
    show allVerified (verifyCore db now token email b gw ce).2 e
    cases hres : issuedResult (verifyCore db now token email b gw ce).1 with
    | false =>
      rw [verifyCore_not_issued_db db now token email b gw ce hres]
      exact h
    | true =>
      obtain ⟨member, cust, hf, hc, h2⟩ :=
        verifyCore_issued_shape db now token email b gw ce hres
      have hme : member.work_email = email := (verifyPred_spec (List.find?_some hf)).1
      have hM2e : (verifiedUpdate member now cust (discountCodeOf email b)).work_email
          = email := hme
      rw [h2]
      by_cases he : email = e
      · subst he
        constructor
        · exact ⟨verifiedUpdate member now cust (discountCodeOf email b),
            self_mem_saveMember _ _, hM2e⟩
        · intro y hy hye
          have := saveMember_eq_of_email hy (hye.trans hM2e.symm)
          rw [this]
          rfl
      · constructor
        · obtain ⟨x, hxmem, hxe⟩ := h.1
          refine ⟨x, mem_saveMember_of_ne hxmem ?_, hxe⟩
          rw [hM2e, hxe]
          exact fun hc2 => he hc2.symm
        · intro y hy hye
          rcases mem_of_mem_saveMember hy with hym | hym
          · exact h.2 y hym hye
          · rw [hym, hM2e] at hye
            exact absurd hye he

lemma issues_allVerified (db : DB) (op : Op) (e : String)
    (h : issues db op e = true) : allVerified (step db op) e := by
  cases op with
  | submit now cc we tok eok => simp [issues] at h
  | admin now hdr key cc cn dom ex mx => simp [issues] at h
  | verify now token email b gw ce =>
    have h2 : email = e ∧ issuedResult (verifyCore db now token email b gw ce).1 = true := by
      simpa [issues] using h
    obtain ⟨he, hres⟩ := h2
    subst he
    obtain ⟨member, cust, hf, hc, h2⟩ :=
      verifyCore_issued_shape db now token email b gw ce hres
    have hme : member.work_email = email := (verifyPred_spec (List.find?_some hf)).1
    have hM2e : (verifiedUpdate member now cust (discountCodeOf email b)).work_email
        = email := hme
    show allVerified (verifyCore db now token email b gw ce).2 email
    rw [h2]
    constructor
    · exact ⟨verifiedUpdate member now cust (discountCodeOf email b),
        self_mem_saveMember _ _, hM2e⟩
    · intro y hy hye
      have := saveMember_eq_of_email hy (hye.trans hM2e.symm)
      rw [this]
      rfl

lemma countIssues_zero (db : DB) (ops : List Op) (e : String)
    (h : allVerified db e) : countIssues db ops e = 0 := by
  induction ops generalizing db with
  | nil => rfl
  | cons op rest ih =>
    have h1 := allVerified_not_issued db op e h
    have h2 := ih (step db op) (allVerified_step db op e h)
    simp [countIssues, h1, h2]

lemma domain_msg_ne_limit (dom : String) :
    "This email domain is not eligible. Use your @" ++ dom ++ " work email."
      ≠ "This company code has reached its activation limit." := by
  intro h
  have hlen := congrArg String.length h
  rw [String.length_append, String.length_append] at hlen
  rw [show ("This email domain is not eligible. Use your @" : String).length = 45
      from by decide,
    show (" work email." : String).length = 12 from by decide,
    show ("This company code has reached its activation limit." : String).length = 51
      from by decide] at hlen
  omega

/-! Claim theorems. -/

/-- C4 counterexample: the catch block of the verify-form handler in the
first source variant places the underlying exception message verbatim in
the error field of its 500 response, so internal error detail IS exposed
to the caller, and the response is not a fixed generic message. -/
theorem C4_counterexample :
    formCatch_v1 "E11000 duplicate key error collection: members" =
      (500, "E11000 duplicate key error collection: members") ∧
    formCatch_v1 "E11000 duplicate key error collection: members" ≠
      formCatch_v1 "connect ECONNREFUSED 127.0.0.1:27017" := by
  constructor
  · rfl
  · decide

/-- C4 (amended): every catch block responds with status 500; the
verify-email, admin and second-variant verify-form catch blocks use a
fixed generic message independent of the internal error, while the
first-variant verify-form catch block exposes the internal exception
message whenever it is nonempty and falls back to the generic message
only for an empty one. -/
theorem C4_amended :
    (∀ m, formCatch_v2 m = (500, "An error occurred. Please try again.")) ∧
    (∀ m, verifyCatch m = (500, "An error occurred during verification.")) ∧
    (∀ m, adminCreateCatch m = (500, "Error creating company code")) ∧
    (∀ m, adminStatsCatch m = (500, "Error fetching stats")) ∧
    (∀ m, (formCatch_v1 m).1 = 500) ∧
    (∀ m, m ≠ "" → (formCatch_v1 m).2 = m) ∧
    (formCatch_v1 "").2 = "An error occurred. Please try again." := by
  refine ⟨fun m => rfl, fun m => rfl, fun m => rfl, fun m => rfl,
    fun m => ?_, fun m hm => ?_, rfl⟩
  · unfold formCatch_v1
    split <;> rfl
  · simp [formCatch_v1, hm]

/-- C4 witness: the amended behavior of the first-variant catch block at a
concrete nonempty internal message. -/
theorem C4_witness :
    ("boom" : String) ≠ "" ∧ (formCatch_v1 "boom").2 = "boom" :=
  ⟨by decide, C4_amended.2.2.2.2.2.1 "boom" (by decide)⟩

/-- C10: a max_activations of zero is treated as unlimited: the admin
creation endpoint stores null for a zero max_activations (and likewise
for a missing one), and the verify-form activation-cap check never fires
for a company whose stored max_activations is null or zero, whatever its
current_activations counter holds, so such a company keeps accepting
submissions. -/
theorem C10_zero_cap_unlimited
    (db : DB) (now : Nat) (key cc cn dom : String) (exp : Option Nat)
    (db2 : DB) (now2 : Nat) (cc2 we tok : String) (eok : Bool) (c : CompanyCode)
    (hfound : findCompany db2 cc2 = some c)
    (hfalsy : c.max_activations = none ∨ c.max_activations = some 0) :
    ((adminCreate db now key key cc cn dom exp (some 0)).2.companies
        = db.companies ++
          [{ company_code := cc, company_name := cn, allowed_domain := dom,
             active := true, created_at := now, expires_at := orNullNat exp,
             max_activations := none, current_activations := 0 }])
    ∧ (adminCreate db now key key cc cn dom exp (some 0)).2.companies
        = (adminCreate db now key key cc cn dom exp none).2.companies
    ∧ (submitCore db2 now2 cc2 we tok eok).1
        ≠ FormResult.badRequest "This company code has reached its activation limit." := by
  have hcap : capReachedB c = false := by
    rcases hfalsy with hf | hf <;> simp [capReachedB, hf]
  refine ⟨by simp [adminCreate, orNullNat], by simp [adminCreate, orNullNat], ?_⟩
  intro heq
  by_cases h1 : cc2 = "" ∨ we = ""
  · simp [submitCore, h1] at heq
  · rw [show (submitCore db2 now2 cc2 we tok eok).1
        = (submitCore db2 now2 cc2 we tok eok).1 from rfl] at heq
    by_cases h3 : expiredB c now2 = true
    · simp [submitCore, h1, hfound, h3] at heq
    · by_cases h5 : emailDomain we ≠ some c.allowed_domain
      · simp [submitCore, h1, hfound, h3, hcap, h5] at heq
        exact domain_msg_ne_limit c.allowed_domain heq
      · cases hfv : findVerifiedMember db2 we with
        | some m => simp [submitCore, h1, hfound, h3, hcap, h5, hfv] at heq
        | none =>
          cases eok <;> simp [submitCore, h1, hfound, h3, hcap, h5, hfv] at heq

/-- C10 witness: concrete company stored with a zero cap and a huge
current_activations counter still passes the cap check. -/
theorem C10_witness :
    findCompany (DB.mk [⟨"ACME1", "Acme", "acme.com", true, 0, none, some 0, 999⟩] [])
        "ACME1" = some ⟨"ACME1", "Acme", "acme.com", true, 0, none, some 0, 999⟩ ∧
    (((adminCreate (DB.mk [] []) 0 "k" "k" "CC" "CN" "corp.com" none (some 0)).2.companies
        = [] ++
          [{ company_code := "CC", company_name := "CN", allowed_domain := "corp.com",
             active := true, created_at := 0, expires_at := orNullNat none,
             max_activations := none, current_activations := 0 }])
      ∧ (adminCreate (DB.mk [] []) 0 "k" "k" "CC" "CN" "corp.com" none (some 0)).2.companies
          = (adminCreate (DB.mk [] []) 0 "k" "k" "CC" "CN" "corp.com" none none).2.companies
      ∧ (submitCore (DB.mk [⟨"ACME1", "Acme", "acme.com", true, 0, none, some 0, 999⟩] [])
            5 "ACME1" "jane@acme.com" "tok" true).1
          ≠ FormResult.badRequest "This company code has reached its activation limit.") :=
  ⟨by decide,
    C10_zero_cap_unlimited (DB.mk [] []) 0 "k" "CC" "CN" "corp.com" none
      (DB.mk [⟨"ACME1", "Acme", "acme.com", true, 0, none, some 0, 999⟩] [])
      5 "ACME1" "jane@acme.com" "tok" true
      ⟨"ACME1", "Acme", "acme.com", true, 0, none, some 0, 999⟩
      (by decide) (Or.inr (by decide))⟩

/-- C6: whenever no member matches the full verify-email lookup filter
(matching email, matching token, pending status, token expiry strictly in
the future), the handler answers with the single undifferentiated
link-invalid failure and leaves the state unchanged; in particular, once
every token expiry stored for the email lies at or before the current
time, the call fails that way regardless of the supplied token. -/
theorem C6_link_invalid (db : DB) (now : Nat) (token email : String)
    (b : Fin 256 × Fin 256 × Fin 256) (gw : ShopifyGateway) (ce : Bool) :
    (db.members.find? (verifyPred now token email) = none →
      (verifyCore db now token email b gw ce).1 = .linkInvalid ∧
      (verifyCore db now token email b gw ce).2 = db)
    ∧ ((∀ x ∈ db.members, x.work_email = email →
          ∀ t, x.token_expires_at = some t → t ≤ now) →
      (verifyCore db now token email b gw ce).1 = .linkInvalid) := by
  constructor
  · intro h
    constructor <;> simp [verifyCore, h]
  · intro hexp
    have hnone : db.members.find? (verifyPred now token email) = none := by
      refine List.find?_eq_none.mpr (fun x hx hpx => ?_)
      obtain ⟨he, -, ⟨t, hte, hlt⟩, -⟩ := verifyPred_spec hpx
      exact absurd hlt (Nat.not_lt.mpr (hexp x hx he t hte))
    simp [verifyCore, hnone]

/-- C6 witness: a concrete call with the right token but an elapsed expiry
returns the undifferentiated link-invalid failure. -/
theorem C6_witness :
    (∀ x ∈ (DB.mk []
        [⟨"jane@acme.com", "ACME1", "Acme", none, none, some "tok", some 100,
          none, none, none, .pending, 0, none, 0, 0⟩]).members,
      x.work_email = "jane@acme.com" →
        ∀ t, x.token_expires_at = some t → t ≤ 100) ∧
    (verifyCore (DB.mk []
        [⟨"jane@acme.com", "ACME1", "Acme", none, none, some "tok", some 100,
          none, none, none, .pending, 0, none, 0, 0⟩])
      100 "tok" "jane@acme.com" (0, 0, 0)
      ⟨["cust1"], Except.ok "cust1", Except.ok 1, Except.ok ()⟩ true).1
      = .linkInvalid :=
  ⟨by decide,
    (C6_link_invalid (DB.mk []
        [⟨"jane@acme.com", "ACME1", "Acme", none, none, some "tok", some 100,
          none, none, none, .pending, 0, none, 0, 0⟩])
      100 "tok" "jane@acme.com" (0, 0, 0)
      ⟨["cust1"], Except.ok "cust1", Except.ok 1, Except.ok ()⟩ true).2
      (by decide)⟩

/-- C5: the six validation checks of the verify-form handler are evaluated
in the specified order, the first failing check short-circuiting into its
distinct failure response: missing field, unknown or inactive code,
elapsed program expiry, reached activation cap, case-sensitive domain
mismatch (message naming the expected domain), already-verified email. -/
theorem C5_validation_order (db : DB) (now : Nat) (cc we tok : String) (eok : Bool) :
    ((cc = "" ∨ we = "") →
      (submitCore db now cc we tok eok).1 = .badRequest "All fields required")
    ∧ (¬(cc = "" ∨ we = "") → findCompany db cc = none →
      (submitCore db now cc we tok eok).1
        = .badRequest "Invalid code. Please check your Inner Circle card and try again.")
    ∧ (∀ c, ¬(cc = "" ∨ we = "") → findCompany db cc = some c →
      expiredB c now = true →
      (submitCore db now cc we tok eok).1
        = .badRequest "This Insider program is no longer active. Contact support for assistance.")
    ∧ (∀ c, ¬(cc = "" ∨ we = "") → findCompany db cc = some c →
      expiredB c now = false → capReachedB c = true →
      (submitCore db now cc we tok eok).1
        = .badRequest "This company code has reached its activation limit.")
    ∧ (∀ c, ¬(cc = "" ∨ we = "") → findCompany db cc = some c →
      expiredB c now = false → capReachedB c = false →
      emailDomain we ≠ some c.allowed_domain →
      (submitCore db now cc we tok eok).1
        = .badRequest ("This email domain is not eligible. Use your @" ++
            c.allowed_domain ++ " work email.")
      ∧ ∃ pre post, ("This email domain is not eligible. Use your @" ++
            c.allowed_domain ++ " work email.") = pre ++ c.allowed_domain ++ post)
    ∧ (∀ c m, ¬(cc = "" ∨ we = "") → findCompany db cc = some c →
      expiredB c now = false → capReachedB c = false →
      emailDomain we = some c.allowed_domain →
      findVerifiedMember db we = some m →
      (submitCore db now cc we tok eok).1
        = .badRequest "This email is already registered. Log in to your account to access your discount.") := by
  refine ⟨fun h1 => by simp [submitCore, h1],
    fun h1 h2 => by simp [submitCore, h1, h2],
    fun c h1 h2 h3 => by simp [submitCore, h1, h2, h3],
    fun c h1 h2 h3 h4 => by simp [submitCore, h1, h2, h3, h4],
    fun c h1 h2 h3 h4 h5 =>
      ⟨by simp [submitCore, h1, h2, h3, h4, h5],
       "This email domain is not eligible. Use your @", " work email.", rfl⟩,
    fun c m h1 h2 h3 h4 h5 h6 => by simp [submitCore, h1, h2, h3, h4, h5, h6]⟩

/-- C5 witness: the concrete spec scenario of a domain mismatch against a
company allowing acme.com, checked through the fifth conjunct. -/
theorem C5_witness :
    (¬(("ACME1" : String) = "" ∨ ("bob@other.com" : String) = "")) ∧
    findCompany (DB.mk [⟨"ACME1", "Acme", "acme.com", true, 0, none, some 1, 0⟩] [])
      "ACME1" = some ⟨"ACME1", "Acme", "acme.com", true, 0, none, some 1, 0⟩ ∧
    ((submitCore (DB.mk [⟨"ACME1", "Acme", "acme.com", true, 0, none, some 1, 0⟩] [])
        0 "ACME1" "bob@other.com" "tok" true).1
      = .badRequest ("This email domain is not eligible. Use your @" ++
          ("acme.com" : String) ++ " work email.")
      ∧ ∃ pre post, ("This email domain is not eligible. Use your @" ++
          ("acme.com" : String) ++ " work email.") = pre ++ ("acme.com" : String) ++ post) :=
  ⟨by decide, by decide,
    (C5_validation_order (DB.mk [⟨"ACME1", "Acme", "acme.com", true, 0, none, some 1, 0⟩] [])
        0 "ACME1" "bob@other.com" "tok" true).2.2.2.2.1
      ⟨"ACME1", "Acme", "acme.com", true, 0, none, some 1, 0⟩
      (by decide) (by decide) (by decide) (by decide) (by decide)⟩

/-- C1 counterexample: a purely sequential execution of submit and verify
calls (no admin call, no interleaving) drives current_activations to 2
against a cap of 1, because the cap is checked only at submission time
while verification increments unconditionally — so the invariant is not
protected in sequential executions either, contrary to the claim that
only a race between concurrent verifications can violate it. -/
theorem C1_counterexample :
    capInvariantB dbC1 = true
    ∧ opsC1.all coreOp = true
    ∧ capInvariantB (run dbC1 opsC1) = false
    ∧ (run dbC1 opsC1).companies.map CompanyCode.current_activations = [2]
    ∧ (run dbC1 opsC1).companies.map CompanyCode.max_activations = [some 1] := by
  refine ⟨rfl, rfl, ?_, ?_, ?_⟩ <;> decide

/-- C1 (amended): the activation cap is enforced only at submission time:
the verify-form handler never modifies any CompanyCode record, and
whenever the matched company's cap is set, nonzero and already reached it
rejects with the activation-limit error and leaves the whole state
unchanged; the verify-email handler increments the counter with no cap
re-check, so the invariant can be exceeded even sequentially once two
members of one company are simultaneously pending. -/
theorem C1_amended (db : DB) (now : Nat) (cc we tok : String) (eok : Bool) :
    (submitCore db now cc we tok eok).2.companies = db.companies
    ∧ (∀ c, ¬(cc = "" ∨ we = "") → findCompany db cc = some c →
        expiredB c now = false → capReachedB c = true →
        submitCore db now cc we tok eok
          = (.badRequest "This company code has reached its activation limit.", db)) := by
  constructor
  · cases hr : (submitCore db now cc we tok eok).1 with
    | badRequest e => rw [submitCore_badRequest_db db now cc we tok eok e hr]
    | emailDeliveryFailed =>
      obtain ⟨company, -, h2⟩ := submitCore_persist db now cc we tok eok
        (fun e he => by rw [hr] at he; cases he)
      rw [h2]
    | ok msg =>
      obtain ⟨company, -, h2⟩ := submitCore_persist db now cc we tok eok
        (fun e he => by rw [hr] at he; cases he)
      rw [h2]
  · intro c h1 h2 h3 h4
    simp [submitCore, h1, h2, h3, h4]

/-- C1 witness for the amended theorem: a concrete company at its cap is
rejected with the activation-limit error and nothing changes. -/
theorem C1_witness :
    (¬(("ACME1" : String) = "" ∨ ("kim@acme.com" : String) = "")) ∧
    findCompany (DB.mk [⟨"ACME1", "Acme", "acme.com", true, 0, none, some 1, 1⟩] [])
      "ACME1" = some ⟨"ACME1", "Acme", "acme.com", true, 0, none, some 1, 1⟩ ∧
    capReachedB ⟨"ACME1", "Acme", "acme.com", true, 0, none, some 1, 1⟩ = true ∧
    submitCore (DB.mk [⟨"ACME1", "Acme", "acme.com", true, 0, none, some 1, 1⟩] [])
        0 "ACME1" "kim@acme.com" "tok" true
      = (.badRequest "This company code has reached its activation limit.",
          DB.mk [⟨"ACME1", "Acme", "acme.com", true, 0, none, some 1, 1⟩] []) :=
  ⟨by decide, by decide, by decide,
    (C1_amended (DB.mk [⟨"ACME1", "Acme", "acme.com", true, 0, none, some 1, 1⟩] [])
        0 "ACME1" "kim@acme.com" "tok" true).2
      ⟨"ACME1", "Acme", "acme.com", true, 0, none, some 1, 1⟩
      (by decide) (by decide) (by decide) (by decide)⟩

lemma hexCharL_toUpper_inj :
    ∀ a b : Fin 16, Char.toUpper (hexCharL a.val) = Char.toUpper (hexCharL b.val) → a = b := by
  decide

lemma hexCharL_upper_range :
    ∀ v : Fin 16, ('A' ≤ Char.toUpper (hexCharL v.val) ∧ Char.toUpper (hexCharL v.val) ≤ 'Z')
      ∨ ('0' ≤ Char.toUpper (hexCharL v.val) ∧ Char.toUpper (hexCharL v.val) ≤ '9') := by
  decide

lemma randomCodeOf_inj : Function.Injective randomCodeOf := by
  rintro ⟨x1, x2, x3⟩ ⟨y1, y2, y3⟩ h
  have hd : List.map Char.toUpper
      [hexCharL (x1.val / 16), hexCharL (x1.val % 16),
       hexCharL (x2.val / 16), hexCharL (x2.val % 16),
       hexCharL (x3.val / 16), hexCharL (x3.val % 16)]
    = List.map Char.toUpper
      [hexCharL (y1.val / 16), hexCharL (y1.val % 16),
       hexCharL (y2.val / 16), hexCharL (y2.val % 16),
       hexCharL (y3.val / 16), hexCharL (y3.val % 16)] := congrArg String.data h
  simp only [List.map_cons, List.map_nil, List.cons.injEq, and_true] at hd
  obtain ⟨e1, e2, e3, e4, e5, e6⟩ := hd
  have b1 := x1.isLt
  have b2 := x2.isLt
  have b3 := x3.isLt
  have c1 := y1.isLt
  have c2 := y2.isLt
  have c3 := y3.isLt
  have d1 : x1.val / 16 = y1.val / 16 := by
    have := hexCharL_toUpper_inj ⟨x1.val / 16, by omega⟩ ⟨y1.val / 16, by omega⟩ e1
    simpa using congrArg Fin.val this
  have d2 : x1.val % 16 = y1.val % 16 := by
    have := hexCharL_toUpper_inj ⟨x1.val % 16, by omega⟩ ⟨y1.val % 16, by omega⟩ e2
    simpa using congrArg Fin.val this
  have d3 : x2.val / 16 = y2.val / 16 := by
    have := hexCharL_toUpper_inj ⟨x2.val / 16, by omega⟩ ⟨y2.val / 16, by omega⟩ e3
    simpa using congrArg Fin.val this
  have d4 : x2.val % 16 = y2.val % 16 := by
    have := hexCharL_toUpper_inj ⟨x2.val % 16, by omega⟩ ⟨y2.val % 16, by omega⟩ e4
    simpa using congrArg Fin.val this
  have d5 : x3.val / 16 = y3.val / 16 := by
    have := hexCharL_toUpper_inj ⟨x3.val / 16, by omega⟩ ⟨y3.val / 16, by omega⟩ e5
    simpa using congrArg Fin.val this
  have d6 : x3.val % 16 = y3.val % 16 := by
    have := hexCharL_toUpper_inj ⟨x3.val % 16, by omega⟩ ⟨y3.val % 16, by omega⟩ e6
    simpa using congrArg Fin.val this
  refine Prod.ext (Fin.ext ?_) (Prod.ext (Fin.ext ?_) (Fin.ext ?_))
  · show x1.val = y1.val
    omega
  · show x2.val = y2.val
    omega
  · show x3.val = y3.val
    omega

/-- C3 counterexample: the random discount-code suffix cannot carry four
bytes of entropy — it is a function of only three random bytes
(crypto.randomBytes(3) in the source), so no injection of two-to-the-32
distinct draws into the generator inputs can keep the suffixes distinct. -/
theorem C3_counterexample : ¬ carriesEntropyBytes randomCodeOf 4 := by
  rintro ⟨f, hf⟩
  have hfi : Function.Injective f := fun a b hab => hf (congrArg randomCodeOf hab)
  have hcard := Fintype.card_le_of_injective f hfi
  simp only [Fintype.card_fin, Fintype.card_prod] at hcard
  norm_num at hcard

/-- C3 (amended): every issued discount code has the form
INNERCIRCLE-NAME-RANDOM with NAME the upper-cased (first character
capitalized) local part of the email; for jane at acme.com the code is
INNERCIRCLE-JANE- followed by a six-character suffix drawn from the
upper-case letters and digits; and the suffix carries three (not four)
bytes of entropy, being an injective image of the three random bytes. -/
theorem C3_amended :
    (∀ (email : String) b, discountCodeOf email b =
      "INNERCIRCLE-" ++ jsToUpper (jsCapitalize (localPart email)) ++ "-" ++ randomCodeOf b)
    ∧ (∀ b, discountCodeOf "jane@acme.com" b = "INNERCIRCLE-JANE-" ++ randomCodeOf b
        ∧ (randomCodeOf b).length = 6
        ∧ ∀ ch ∈ (randomCodeOf b).data,
            ('A' ≤ ch ∧ ch ≤ 'Z') ∨ ('0' ≤ ch ∧ ch ≤ '9'))
    ∧ carriesEntropyBytes randomCodeOf 3 := by
  refine ⟨fun email b => rfl, fun b => ⟨rfl, ?_, ?_⟩, ?_⟩
  · rfl
  · intro ch hch
    have hb1 := b.1.isLt
    have hb2 := b.2.1.isLt
    have hb3 := b.2.2.isLt
    simp only [randomCodeOf, jsToUpper, List.map_cons, List.map_nil, List.mem_cons,
      List.not_mem_nil, or_false] at hch
    rcases hch with rfl | rfl | rfl | rfl | rfl | rfl
    · exact hexCharL_upper_range ⟨b.1.val / 16, by omega⟩
    · exact hexCharL_upper_range ⟨b.1.val % 16, by omega⟩
    · exact hexCharL_upper_range ⟨b.2.1.val / 16, by omega⟩
    · exact hexCharL_upper_range ⟨b.2.1.val % 16, by omega⟩
    · exact hexCharL_upper_range ⟨b.2.2.val / 16, by omega⟩
    · exact hexCharL_upper_range ⟨b.2.2.val % 16, by omega⟩
  · refine ⟨fun i =>
      (Fin.mk (i.val / 65536) (by have h := i.isLt; norm_num at h; omega),
       Fin.mk (i.val / 256 % 256) (by omega),
       Fin.mk (i.val % 256) (by omega)), ?_⟩
    intro a b h
    have hxy := randomCodeOf_inj h
    have h1 : a.val / 65536 = b.val / 65536 := congrArg (fun t => t.1.val) hxy
    have h2 : a.val / 256 % 256 = b.val / 256 % 256 := congrArg (fun t => t.2.1.val) hxy
    have h3 : a.val % 256 = b.val % 256 := congrArg (fun t => t.2.2.val) hxy
    have ha := a.isLt
    have hb := b.isLt
    norm_num at ha hb
    have da : a.val / 256 / 256 = a.val / 65536 := by
      rw [Nat.div_div_eq_div_mul]
    have db : b.val / 256 / 256 = b.val / 65536 := by
      rw [Nat.div_div_eq_div_mul]
    exact Fin.ext (by omega)

/-- C3 witness: the amended pattern facts checked at a concrete draw of
the three random bytes. -/
theorem C3_witness :
    ('A' ∈ (randomCodeOf (170, 170, 170)).data) ∧
    (('A' ≤ 'A' ∧ 'A' ≤ 'Z') ∨ (('0' : Char) ≤ 'A' ∧ ('A' : Char) ≤ '9')) :=
  ⟨by decide, (C3_amended.2.1 (170, 170, 170)).2.2 'A' (by decide)⟩

/-- C2 counterexample: a successful submission by an existing member under
a DIFFERENT company code leaves the member linked to the old company —
the company linkage is NOT overwritten with the newly submitted values,
contrary to the claim. -/
theorem C2_counterexample :
    (submitCore dbC2 0 "ACME2" "jane@acme.com" "tok2" true).1
      = .ok "Check your email! We sent a verification link to jane@acme.com." ∧
    ((submitCore dbC2 0 "ACME2" "jane@acme.com" "tok2" true).2.members.find?
        (fun m => m.work_email == "jane@acme.com")).map
        (fun m => (m.company_code, m.company_name))
      = some ("ACME1", "Acme One") ∧
    ("ACME1" : String) ≠ "ACME2" := by
  refine ⟨?_, ?_, ?_⟩ <;> decide

/-- C2 (amended): a successful submission for an already-existing member
overwrites the verification token, the token expiry and the status (reset
to pending) but leaves every other field — the company linkage
company_code and company_name included — at its previous value. -/
theorem C2_amended (db : DB) (now : Nat) (cc we tok : String) (eok : Bool)
    (m : Member) (hm : db.members.find? (fun x => x.work_email == we) = some m)
    (msg : String) (hok : (submitCore db now cc we tok eok).1 = .ok msg) :
    (submitCore db now cc we tok eok).2.members
      = saveMember db.members
          { m with verification_token := some tok,
                   token_expires_at := some (now + 24 * 60 * 60 * 1000),
                   verification_status := .pending }
    ∧ ∃ m2, (submitCore db now cc we tok eok).2.members.find?
          (fun x => x.work_email == we) = some m2
        ∧ m2.company_code = m.company_code ∧ m2.company_name = m.company_name
        ∧ m2.discount_code = m.discount_code
        ∧ m2.shopify_customer_id = m.shopify_customer_id
        ∧ m2.verification_token = some tok
        ∧ m2.token_expires_at = some (now + 24 * 60 * 60 * 1000)
        ∧ m2.verification_status = .pending := by
  have hne : ∀ e, (submitCore db now cc we tok eok).1 ≠ .badRequest e := by
    intro e he
    rw [hok] at he
    cases he
  obtain ⟨company, hfc, h2⟩ := submitCore_persist db now cc we tok eok hne
  have hmwe : m.work_email = we := by simpa using List.find?_some hm
  have hup : upsertMember db now cc we tok company
      = { m with verification_token := some tok,
                 token_expires_at := some (now + 24 * 60 * 60 * 1000),
                 verification_status := .pending } := by
    simp [upsertMember, hm]
  have hmembers : (submitCore db now cc we tok eok).2.members
      = saveMember db.members
          { m with verification_token := some tok,
                   token_expires_at := some (now + 24 * 60 * 60 * 1000),
                   verification_status := .pending } := by
    rw [h2, ← hup]
  refine ⟨hmembers, ?_⟩
  have hfind : (submitCore db now cc we tok eok).2.members.find?
      (fun x => x.work_email == we)
      = some { m with verification_token := some tok,
                      token_expires_at := some (now + 24 * 60 * 60 * 1000),
                      verification_status := .pending } := by
    rw [hmembers]
    refine find?_saveMember _ _ _ ?_ ?_
    · show (m.work_email == we) = true
      simpa using hmwe
    · intro x hx
      have hxne : x.work_email ≠ we := fun hxe => hx (hxe.trans hmwe.symm)
      simpa using hxne
  exact ⟨_, hfind, rfl, rfl, rfl, rfl, rfl, rfl, rfl⟩

/-- C2 witness: the amended behavior at the concrete C2 scenario. -/
theorem C2_witness :
    dbC2.members.find? (fun x => x.work_email == "jane@acme.com") = some mC2 ∧
    (submitCore dbC2 0 "ACME2" "jane@acme.com" "tok2" true).1
      = .ok "Check your email! We sent a verification link to jane@acme.com." ∧
    ((submitCore dbC2 0 "ACME2" "jane@acme.com" "tok2" true).2.members
      = saveMember dbC2.members
          { mC2 with verification_token := some "tok2",
                     token_expires_at := some (0 + 24 * 60 * 60 * 1000),
                     verification_status := .pending }
    ∧ ∃ m2, (submitCore dbC2 0 "ACME2" "jane@acme.com" "tok2" true).2.members.find?
          (fun x => x.work_email == "jane@acme.com") = some m2
        ∧ m2.company_code = mC2.company_code ∧ m2.company_name = mC2.company_name
        ∧ m2.discount_code = mC2.discount_code
        ∧ m2.shopify_customer_id = mC2.shopify_customer_id
        ∧ m2.verification_token = some "tok2"
        ∧ m2.token_expires_at = some (0 + 24 * 60 * 60 * 1000)
        ∧ m2.verification_status = .pending) :=
  ⟨by decide, by decide,
    C2_amended dbC2 0 "ACME2" "jane@acme.com" "tok2" true mC2 (by decide)
      "Check your email! We sent a verification link to jane@acme.com." (by decide)⟩

/-- C7: when the member lookup matches but Shopify provisioning fails at
any of its steps (customer creation, price-rule creation, or discount
attachment), the operation fails with that provisioning failure (caught
as the generic 500) and the database — matched pending member, token and
expiry included — is left entirely unmodified, so the same link verifies
successfully on a later retry whose gateway calls succeed. -/
theorem C7_provisioning_failure (db : DB) (now : Nat) (token email : String)
    (b : Fin 256 × Fin 256 × Fin 256) (gw : ShopifyGateway) (ce : Bool)
    (member : Member)
    (hf : db.members.find? (verifyPred now token email) = some member)
    (hfail : ¬ GwOk gw) :
    (∃ e, (verifyCore db now token email b gw ce).1 = .provisioningFailed e)
    ∧ (verifyCore db now token email b gw ce).2 = db
    ∧ (∀ b2 gw2, GwOk gw2 →
        (verifyCore db now token email b2 gw2 true).1
          = .ok "Email verified! Your discount code has been generated."
              (discountCodeOf email b2) (jsCapitalize (localPart email))) := by
  have hretry : ∀ b2 gw2, GwOk gw2 →
      (verifyCore db now token email b2 gw2 true).1
        = .ok "Email verified! Your discount code has been generated."
            (discountCodeOf email b2) (jsCapitalize (localPart email)) :=
    fun b2 gw2 hgw => verifyCore_success db now token email b2 gw2 member hf hgw
  cases hc : customerOf gw with
  | error e =>
    exact ⟨⟨e, by simp [verifyCore, hf, hc]⟩, by simp [verifyCore, hf, hc], hretry⟩
  | ok cust =>
    cases hp : gw.create_price_rule with
    | error e =>
      exact ⟨⟨e, by simp [verifyCore, hf, hc, hp]⟩,
        by simp [verifyCore, hf, hc, hp], hretry⟩
    | ok rid =>
      cases ha : gw.attach_code with
      | error e =>
        exact ⟨⟨e, by simp [verifyCore, hf, hc, hp, ha]⟩,
          by simp [verifyCore, hf, hc, hp, ha], hretry⟩
      | ok u =>
        exact absurd ⟨⟨cust, hc⟩, ⟨rid, hp⟩, by cases u; exact ha⟩ hfail

/-- C7 witness: a concrete pending member, a gateway failing at every
step; the call reports a provisioning failure, nothing changes, and the
same link succeeds against a working gateway. -/
theorem C7_witness :
    ((DB.mk [] [⟨"jane@acme.com", "ACME1", "Acme", none, none, some "tok",
        some 100, none, none, none, .pending, 0, none, 0, 0⟩]).members.find?
      (verifyPred 50 "tok" "jane@acme.com")
      = some ⟨"jane@acme.com", "ACME1", "Acme", none, none, some "tok",
          some 100, none, none, none, .pending, 0, none, 0, 0⟩)
    ∧ ¬ GwOk ⟨[], Except.error "api down", Except.error "api down", Except.error "api down"⟩
    ∧ ((∃ e, (verifyCore (DB.mk [] [⟨"jane@acme.com", "ACME1", "Acme", none, none,
          some "tok", some 100, none, none, none, .pending, 0, none, 0, 0⟩])
          50 "tok" "jane@acme.com" (0, 0, 0)
          ⟨[], Except.error "api down", Except.error "api down", Except.error "api down"⟩
          true).1 = .provisioningFailed e)
      ∧ (verifyCore (DB.mk [] [⟨"jane@acme.com", "ACME1", "Acme", none, none,
          some "tok", some 100, none, none, none, .pending, 0, none, 0, 0⟩])
          50 "tok" "jane@acme.com" (0, 0, 0)
          ⟨[], Except.error "api down", Except.error "api down", Except.error "api down"⟩
          true).2
        = DB.mk [] [⟨"jane@acme.com", "ACME1", "Acme", none, none, some "tok",
            some 100, none, none, none, .pending, 0, none, 0, 0⟩]
      ∧ (∀ b2 gw2, GwOk gw2 →
          (verifyCore (DB.mk [] [⟨"jane@acme.com", "ACME1", "Acme", none, none,
              some "tok", some 100, none, none, none, .pending, 0, none, 0, 0⟩])
            50 "tok" "jane@acme.com" b2 gw2 true).1
            = .ok "Email verified! Your discount code has been generated."
                (discountCodeOf "jane@acme.com" b2)
                (jsCapitalize (localPart "jane@acme.com")))) :=
  ⟨by decide,
    by rintro ⟨⟨c, hc⟩, -, -⟩; simp [customerOf] at hc,
    C7_provisioning_failure
      (DB.mk [] [⟨"jane@acme.com", "ACME1", "Acme", none, none, some "tok",
        some 100, none, none, none, .pending, 0, none, 0, 0⟩])
      50 "tok" "jane@acme.com" (0, 0, 0)
      ⟨[], Except.error "api down", Except.error "api down", Except.error "api down"⟩
      true
      ⟨"jane@acme.com", "ACME1", "Acme", none, none, some "tok", some 100,
        none, none, none, .pending, 0, none, 0, 0⟩
      (by decide)
      (by rintro ⟨⟨c, hc⟩, -, -⟩; simp [customerOf] at hc)⟩

/-- C9: when the verification-email send fails, the submission fails as a
whole (the thrown send error reaches the catch block) but the persisted
pending record stays in place: the member carries the fresh token with
its 24-hour expiry and pending status; the token is usable — verifying
with it before expiry against a working gateway succeeds — and any later
resubmission that passes validation stores a fresh token for the same
member, back in pending state. -/
theorem C9_email_delivery_failure (db : DB) (now : Nat) (cc we tok : String)
    (hfail : (submitCore db now cc we tok false).1 = .emailDeliveryFailed) :
    ∃ m2, (submitCore db now cc we tok false).2.members.find?
        (fun x => x.work_email == we) = some m2
      ∧ m2.verification_token = some tok
      ∧ m2.token_expires_at = some (now + 24 * 60 * 60 * 1000)
      ∧ m2.verification_status = .pending
      ∧ (∀ now2 b gw2, now2 < now + 24 * 60 * 60 * 1000 → GwOk gw2 →
          (verifyCore (submitCore db now cc we tok false).2 now2 tok we b gw2 true).1
            = .ok "Email verified! Your discount code has been generated."
                (discountCodeOf we b) (jsCapitalize (localPart we)))
      ∧ (∀ now3 tok2 eok2,
          (∀ e, (submitCore (submitCore db now cc we tok false).2
              now3 cc we tok2 eok2).1 ≠ FormResult.badRequest e) →
          ∃ m3, (submitCore (submitCore db now cc we tok false).2
              now3 cc we tok2 eok2).2.members.find?
              (fun x => x.work_email == we) = some m3
            ∧ m3.verification_token = some tok2
            ∧ m3.verification_status = .pending) := by
  have hne : ∀ e, (submitCore db now cc we tok false).1 ≠ FormResult.badRequest e := by
    intro e he
    rw [hfail] at he
    cases he
  obtain ⟨m2, hfind, hemail, htok, hexp, hst, hall, hmem⟩ :=
    submit_persist_find db now cc we tok false hne
  refine ⟨m2, hfind, htok, hexp, hst, ?_, ?_⟩
  · intro now2 b gw2 hlt hgw
    have hvp : verifyPred now2 tok we m2 = true := by
      simp [verifyPred, hemail, htok, hexp, hst, hlt]
    have hfind2 : (submitCore db now cc we tok false).2.members.find?
        (verifyPred now2 tok we) = some m2 := by
      refine find?_of_unique _ _ _ hmem
        (fun x hx he => hall x hx (he.trans hemail)) hvp ?_
      intro x hx
      have hxe : x.work_email ≠ we := fun h => hx (h.trans hemail.symm)
      simp [verifyPred, hxe]
    exact verifyCore_success _ now2 tok we b gw2 m2 hfind2 hgw
  · intro now3 tok2 eok2 hne3
    obtain ⟨m3, hfind3, -, htok3, -, hst3, -, -⟩ :=
      submit_persist_find _ now3 cc we tok2 eok2 hne3
    exact ⟨m3, hfind3, htok3, hst3⟩

/-- C9 witness: a concrete failed-email submission leaves the pending
member with its usable token. -/
theorem C9_witness :
    (submitCore (DB.mk [⟨"ACME1", "Acme", "acme.com", true, 0, none, none, 0⟩] [])
        0 "ACME1" "jane@acme.com" "tokA" false).1 = .emailDeliveryFailed
    ∧ ∃ m2, (submitCore (DB.mk [⟨"ACME1", "Acme", "acme.com", true, 0, none, none, 0⟩] [])
          0 "ACME1" "jane@acme.com" "tokA" false).2.members.find?
          (fun x => x.work_email == "jane@acme.com") = some m2
        ∧ m2.verification_token = some "tokA"
        ∧ m2.token_expires_at = some (0 + 24 * 60 * 60 * 1000)
        ∧ m2.verification_status = .pending
        ∧ (∀ now2 b gw2, now2 < 0 + 24 * 60 * 60 * 1000 → GwOk gw2 →
            (verifyCore (submitCore
                (DB.mk [⟨"ACME1", "Acme", "acme.com", true, 0, none, none, 0⟩] [])
                0 "ACME1" "jane@acme.com" "tokA" false).2
              now2 "tokA" "jane@acme.com" b gw2 true).1
              = .ok "Email verified! Your discount code has been generated."
                  (discountCodeOf "jane@acme.com" b)
                  (jsCapitalize (localPart "jane@acme.com")))
        ∧ (∀ now3 tok2 eok2,
            (∀ e, (submitCore (submitCore
                (DB.mk [⟨"ACME1", "Acme", "acme.com", true, 0, none, none, 0⟩] [])
                0 "ACME1" "jane@acme.com" "tokA" false).2
                now3 "ACME1" "jane@acme.com" tok2 eok2).1 ≠ FormResult.badRequest e) →
            ∃ m3, (submitCore (submitCore
                (DB.mk [⟨"ACME1", "Acme", "acme.com", true, 0, none, none, 0⟩] [])
                0 "ACME1" "jane@acme.com" "tokA" false).2
                now3 "ACME1" "jane@acme.com" tok2 eok2).2.members.find?
                (fun x => x.work_email == "jane@acme.com") = some m3
              ∧ m3.verification_token = some tok2
              ∧ m3.verification_status = .pending) :=
  ⟨by decide,
    C9_email_delivery_failure
      (DB.mk [⟨"ACME1", "Acme", "acme.com", true, 0, none, none, 0⟩] [])
      0 "ACME1" "jane@acme.com" "tokA" (by decide)⟩

/-- C8: single-use token and idempotent issuance. After a successful
verification every member record under that work email is verified with
the freshly generated discount code, a verified_at stamp, and cleared
token and expiry; a second verify-email call with the same token and
email (at any later time, with any gateway) answers link-invalid; and
along ANY sequential execution of requests, at most one discount code is
ever issued for a given work email. -/
theorem C8_single_use_idempotent (db : DB) (now : Nat) (token email : String)
    (b : Fin 256 × Fin 256 × Fin 256) (gw : ShopifyGateway) (ce : Bool)
    (msg dc fn : String)
    (hok : (verifyCore db now token email b gw ce).1 = .ok msg dc fn) :
    (∀ x ∈ (verifyCore db now token email b gw ce).2.members,
        x.work_email = email →
        x.verification_status = .verified
      ∧ x.discount_code = some (discountCodeOf email b)
      ∧ x.verified_at = some now
      ∧ x.verification_token = none
      ∧ x.token_expires_at = none)
    ∧ (∀ now2 b2 gw2 ce2,
        (verifyCore (verifyCore db now token email b gw ce).2
            now2 token email b2 gw2 ce2).1 = .linkInvalid)
    ∧ (∀ db0 ops e, countIssues db0 ops e ≤ 1) := by
  have hres : issuedResult (verifyCore db now token email b gw ce).1 = true := by
    rw [hok]
    rfl
  obtain ⟨member, cust, hf, hc, h2⟩ :=
    verifyCore_issued_shape db now token email b gw ce hres
  have hme : member.work_email = email := (verifyPred_spec (List.find?_some hf)).1
  have hM2e : (verifiedUpdate member now cust (discountCodeOf email b)).work_email
      = email := hme
  have hfields : ∀ x ∈ (verifyCore db now token email b gw ce).2.members,
      x.work_email = email →
      x = verifiedUpdate member now cust (discountCodeOf email b) := by
    intro x hx hxe
    rw [h2] at hx
    exact saveMember_eq_of_email hx (hxe.trans hM2e.symm)
  refine ⟨?_, ?_, ?_⟩
  · intro x hx hxe
    rw [hfields x hx hxe]
    exact ⟨rfl, rfl, rfl, rfl, rfl⟩
  · intro now2 b2 gw2 ce2
    have hnone : (verifyCore db now token email b gw ce).2.members.find?
        (verifyPred now2 token email) = none := by
      refine List.find?_eq_none.mpr (fun x hx hpx => ?_)
      obtain ⟨hxe, -, -, hxs⟩ := verifyPred_spec hpx
      rw [hfields x hx hxe] at hxs
      simp [verifiedUpdate] at hxs
    have hgen : ∀ dbX : DB, dbX.members.find? (verifyPred now2 token email) = none →
        (verifyCore dbX now2 token email b2 gw2 ce2).1 = .linkInvalid := by
      intro dbX hX
      simp [verifyCore, hX]
    exact hgen _ hnone
  · intro db0 ops e
    induction ops generalizing db0 with
    | nil => exact Nat.zero_le 1
    | cons op rest ih =>
      by_cases hi : issues db0 op e = true
      · have hz := countIssues_zero (step db0 op) rest e (issues_allVerified db0 op e hi)
        simp [countIssues, hi, hz]
      · have hif : issues db0 op e = false := by simpa using hi
        have h3 := ih (step db0 op)
        simpa [countIssues, hif] using h3

/-- C8 witness: a concrete successful verification, checked through the
theorem at that state. -/
theorem C8_witness :
    (verifyCore (DB.mk [] [⟨"jane@acme.com", "ACME1", "Acme", none, none,
        some "tok", some 100, none, none, none, .pending, 0, none, 0, 0⟩])
      50 "tok" "jane@acme.com" (0, 0, 0)
      ⟨["cust1"], Except.ok "cust1", Except.ok 1, Except.ok ()⟩ true).1
      = .ok "Email verified! Your discount code has been generated."
          (discountCodeOf "jane@acme.com" (0, 0, 0)) "Jane"
    ∧ ((∀ x ∈ (verifyCore (DB.mk [] [⟨"jane@acme.com", "ACME1", "Acme", none, none,
          some "tok", some 100, none, none, none, .pending, 0, none, 0, 0⟩])
          50 "tok" "jane@acme.com" (0, 0, 0)
          ⟨["cust1"], Except.ok "cust1", Except.ok 1, Except.ok ()⟩ true).2.members,
          x.work_email = "jane@acme.com" →
          x.verification_status = .verified
        ∧ x.discount_code = some (discountCodeOf "jane@acme.com" (0, 0, 0))
        ∧ x.verified_at = some 50
        ∧ x.verification_token = none
        ∧ x.token_expires_at = none)
      ∧ (∀ now2 b2 gw2 ce2,
          (verifyCore (verifyCore (DB.mk [] [⟨"jane@acme.com", "ACME1", "Acme", none,
              none, some "tok", some 100, none, none, none, .pending, 0, none, 0, 0⟩])
            50 "tok" "jane@acme.com" (0, 0, 0)
            ⟨["cust1"], Except.ok "cust1", Except.ok 1, Except.ok ()⟩ true).2
              now2 "tok" "jane@acme.com" b2 gw2 ce2).1 = .linkInvalid)
      ∧ (∀ db0 ops e, countIssues db0 ops e ≤ 1)) :=
  ⟨by decide,
    C8_single_use_idempotent
      (DB.mk [] [⟨"jane@acme.com", "ACME1", "Acme", none, none, some "tok",
        some 100, none, none, none, .pending, 0, none, 0, 0⟩])
      50 "tok" "jane@acme.com" (0, 0, 0)
      ⟨["cust1"], Except.ok "cust1", Except.ok 1, Except.ok ()⟩ true
      "Email verified! Your discount code has been generated."
      (discountCodeOf "jane@acme.com" (0, 0, 0)) "Jane" (by decide)⟩

end Athloun
